import Mathlib

/-!
Verification of `rust_shared_channel` (`src/lib.rs`): a multi-consumer
wrapper `SharedReceiver<T>` around `std::sync::mpsc::Receiver<T>`,
implemented as `Arc<Mutex<Receiver<T>>>`.

Shallow embedding. Concurrency is modelled by linearization: the `Mutex`
guarantees that at most one receive operation executes against the
underlying receiver at any instant, so a concurrent execution is an
arbitrary interleaving (schedule) of atomic receive operations on the
shared state. Blocking is made observable as an explicit `blocks`
outcome: a call that would suspend forever in Rust is mapped to
`blocks` instead of a return value.

The observable state of one underlying channel is:
  * `queue`       — the FIFO buffer of undelivered messages;
  * `sendersGone` — every `Sender` clone has been dropped;
  * `poisoned`    — the `Mutex` around the receiver is poisoned
                    (a prior holder panicked while holding it);
  * `lockHeld`    — the `Mutex` is currently held by another thread
                    (relevant only to the non-blocking `try_recv`;
                     a blocking `lock()` simply waits it out).
The `Arc` reference count is not part of this state: no claim under
consideration depends on receiver-side drop.
-/

universe u

/-- State of one underlying mpsc channel together with the `Mutex`
wrapped around its receiving endpoint. -/
structure ChanState (T : Type u) where
  queue : List T
  sendersGone : Bool
  poisoned : Bool
  lockHeld : Bool
  deriving Repr, DecidableEq

/-- The state of a freshly constructed channel: empty queue, senders
alive, lock unpoisoned and free.  Mirrors `channel()` followed by
`SharedReceiver::new` (`Arc::new(Mutex::new(receiver))`). -/
def ChanState.new {T : Type u} : ChanState T :=
  { queue := [], sendersGone := false, poisoned := false, lockHeld := false }

/-- `std::sync::mpsc::RecvError` (zero-size struct). -/
inductive RecvErr : Type where
  | mk
  deriving Repr, DecidableEq

/-- `std::sync::mpsc::TryRecvError`. -/
inductive TryRecvError : Type where
  | Empty
  | Disconnected
  deriving Repr, DecidableEq

/-- `std::sync::mpsc::SendError` (the payload is dropped in the model). -/
inductive SendErr : Type where
  | mk
  deriving Repr, DecidableEq

/-- Outcome of a blocking receive call.  `ok`/`err` are the two values
of Rust's `Result<T, RecvError>`; `blocks` records that the call never
returns (the thread suspends forever). -/
inductive RecvOutcome (T : Type u) : Type u where
  | ok (t : T)
  | err
  | blocks
  deriving Repr, DecidableEq

/-- Modelled from the spec: the external Underlying Queue collaborator
(`std::sync::mpsc::Receiver::recv`, out of scope of the repository).
Per its assumed contract: returns the next message in FIFO order,
reports disconnected when every sender is gone and the queue is
drained, and otherwise blocks until a message or a disconnect. -/
def mpscRecv {T : Type u} (s : ChanState T) : RecvOutcome T × ChanState T :=
  match s.queue with
  | t :: rest => (RecvOutcome.ok t, { s with queue := rest })
  | [] => if s.sendersGone then (RecvOutcome.err, s) else (RecvOutcome.blocks, s)

/-- Modelled from the spec: the external Underlying Queue collaborator
(`std::sync::mpsc::Receiver::try_recv`).  Never blocks: returns the
next message, or `Empty` when the queue is empty but connected, or
`Disconnected` when every sender is gone and the queue is drained. -/
def mpscTryRecv {T : Type u} (s : ChanState T) :
    Except TryRecvError T × ChanState T :=
  match s.queue with
  | t :: rest => (Except.ok t, { s with queue := rest })
  | [] =>
    if s.sendersGone then (Except.error TryRecvError.Disconnected, s)
    else (Except.error TryRecvError.Empty, s)

/-- Modelled from the spec: the external Underlying Queue collaborator
(`std::sync::mpsc::Sender::send`): appends the message to the queue;
fails only when the receiving side is gone, which no claim under
consideration exercises, so the model keeps the receiver alive and the
send infallible. -/
def mpscSend {T : Type u} (t : T) (s : ChanState T) : ChanState T :=
  { s with queue := s.queue ++ [t] }

/-- Body of `SharedReceiver::recv` acting on the channel behind the
lock:
```text
match self.inner.lock() {
    Ok(mutex) => mutex.recv(),
    Err(_) => Err(RecvError),
}
```
A blocking `lock()` waits for any current holder and fails exactly
when the mutex is poisoned, in which case the `Err(_)` arm returns
`Err(RecvError)` as an ordinary value. -/
def lockRecv {T : Type u} (s : ChanState T) : RecvOutcome T × ChanState T :=
  if s.poisoned then (RecvOutcome.err, s) else mpscRecv s

/-- Body of `SharedReceiver::try_recv` acting on the channel behind the
lock:
```text
match self.inner.try_lock() {
    Ok(mutex) => mutex.try_recv(),
    Err(TryLockError::Poisoned(_)) => Err(TryRecvError::Disconnected),
    _ => Err(TryRecvError::Empty),
}
```
`try_lock` reports `WouldBlock` (the final `_` arm) whenever the lock
is currently held, and `Poisoned` when it is free but poisoned. -/
def lockTryRecv {T : Type u} (s : ChanState T) :
    Except TryRecvError T × ChanState T :=
  if s.lockHeld then (Except.error TryRecvError.Empty, s)
  else if s.poisoned then (Except.error TryRecvError.Disconnected, s)
  else mpscTryRecv s

/-- A world of underlying channels, one `ChanState` per construction
call, indexed by position.  `shared_channel()` allocates a fresh
channel at the end of the list. -/
structure World (T : Type u) where
  chans : List (ChanState T)
  deriving Repr, DecidableEq

/-- The channel at index `i` (indices are only ever produced by
`shared_channel`, so they are in range; out of range defaults to a
fresh state). -/
def World.getChan {T : Type u} (w : World T) (i : Nat) : ChanState T :=
  w.chans.getD i ChanState.new

/-- Replace the channel at index `i`. -/
def World.setChan {T : Type u} (w : World T) (i : Nat) (s : ChanState T) :
    World T :=
  ⟨w.chans.set i s⟩

/-- `Sender<T>`: a handle to the sending side of one underlying
channel. -/
structure Sender (T : Type u) : Type where
  ch : Nat
  deriving Repr, DecidableEq

/-- `SharedReceiver<T>`: an `Arc<Mutex<Receiver<T>>>` handle; all
clones reference the same underlying channel `ch`. -/
structure SharedReceiver (T : Type u) : Type where
  ch : Nat
  deriving Repr, DecidableEq

/-- `impl Clone for SharedReceiver`: `Arc::clone(&self.inner)` yields a
new handle to the same underlying channel; the channel itself is
untouched (only the reference count, invisible to the queue, moves). -/
def SharedReceiver.clone {T : Type u} (rx : SharedReceiver T) :
    SharedReceiver T :=
  ⟨rx.ch⟩

/-- `SharedReceiver::clone` as a state-threading operation, making
explicit that it reads and writes no channel state. -/
def SharedReceiver.cloneW {T : Type u} (rx : SharedReceiver T)
    (w : World T) : SharedReceiver T × World T :=
  (rx.clone, w)

/-- `SharedReceiver::recv`. -/
def SharedReceiver.recv {T : Type u} (rx : SharedReceiver T) (w : World T) :
    RecvOutcome T × World T :=
  let p := lockRecv (w.getChan rx.ch)
  (p.1, w.setChan rx.ch p.2)

/-- `SharedReceiver::try_recv`. -/
def SharedReceiver.try_recv {T : Type u} (rx : SharedReceiver T)
    (w : World T) : Except TryRecvError T × World T :=
  let p := lockTryRecv (w.getChan rx.ch)
  (p.1, w.setChan rx.ch p.2)

/-- `Sender::send` (`tx.send(t)`). -/
def Sender.send {T : Type u} (tx : Sender T) (t : T) (w : World T) :
    World T :=
  w.setChan tx.ch (mpscSend t (w.getChan tx.ch))

/-- `Iter<'a, T>`: borrows one `SharedReceiver`. -/
structure Iter (T : Type u) : Type where
  rx : SharedReceiver T
  deriving Repr, DecidableEq

/-- `SharedReceiver::iter`: `Iter { rx: self }`. -/
def SharedReceiver.iter {T : Type u} (rx : SharedReceiver T) : Iter T :=
  ⟨rx⟩

/-- `SharedReceiver::iter` as a state-threading operation, making
explicit that it reads and writes no channel state. -/
def SharedReceiver.iterW {T : Type u} (rx : SharedReceiver T)
    (w : World T) : Iter T × World T :=
  (rx.iter, w)

/-- `IntoIterator for &SharedReceiver`: `fn into_iter(self) { self.iter() }`. -/
def SharedReceiver.intoIter {T : Type u} (rx : SharedReceiver T) : Iter T :=
  rx.iter

/-- Outcome of one `Iterator::next` call.  `yields`/`done` are
`Some`/`None`; `blocks` records that the inner blocking receive never
returns. -/
inductive NextOutcome (T : Type u) : Type u where
  | yields (t : T)
  | done
  | blocks
  deriving Repr, DecidableEq

/-- `Iterator for Iter`: `fn next(&mut self) { self.rx.recv().ok() }` —
one blocking receive, `Ok` mapped to `Some` and `Err` to `None`. -/
def Iter.next {T : Type u} (it : Iter T) (w : World T) :
    NextOutcome T × World T :=
  match it.rx.recv w with
  | (RecvOutcome.ok t, w2) => (NextOutcome.yields t, w2)
  | (RecvOutcome.err, w2) => (NextOutcome.done, w2)
  | (RecvOutcome.blocks, w2) => (NextOutcome.blocks, w2)

/-- `shared_channel()`: allocates one fresh underlying channel and
returns the sender/shared-receiver pair wired to it. -/
def shared_channel {T : Type u} (w : World T) :
    (Sender T × SharedReceiver T) × World T :=
  ((⟨w.chans.length⟩, ⟨w.chans.length⟩), ⟨w.chans ++ [ChanState.new]⟩)

/-- Run a schedule of blocking receive calls: each list element is the
(clone of the) receiver performing the next call; the mutex serializes
the calls, so a concurrent execution is one such schedule. -/
def runRecvs {T : Type u} :
    List (SharedReceiver T) → World T → List (RecvOutcome T) × World T
  | [], w => ([], w)
  | r :: rest, w =>
    let p := r.recv w
    let q := runRecvs rest p.2
    (p.1 :: q.1, q.2)

/-- The messages actually delivered by a list of receive outcomes. -/
def okValues {T : Type u} (l : List (RecvOutcome T)) : List T :=
  l.filterMap fun o =>
    match o with
    | RecvOutcome.ok t => some t
    | _ => none

/-- `n` blocking receive calls on one channel state (single-clone,
sequential use: the world collapses to one `ChanState`). -/
def recvN {T : Type u} : Nat → ChanState T → List (RecvOutcome T) × ChanState T
  | 0, s => ([], s)
  | n + 1, s =>
    let p := lockRecv s
    let q := recvN n p.2
    (p.1 :: q.1, q.2)

/-- Send a list of messages in order from one sender (channel-state
level). -/
def sendAll {T : Type u} (msgs : List T) (s : ChanState T) : ChanState T :=
  msgs.foldl (fun s2 t => mpscSend t s2) s

/-- Send a list of messages in order from one sender (world level). -/
def sendAllW {T : Type u} (tx : Sender T) (msgs : List T) (w : World T) :
    World T :=
  msgs.foldl (fun w2 t => tx.send t w2) w

/-! ### List helper lemmas -/

theorem listSet_getD_eq {α : Type u} (d : α) :
    ∀ (l : List α) (i : Nat) (a : α), i < l.length → (l.set i a).getD i d = a := by
  intro l
  induction l with
  | nil => intro i a h; exact absurd h (by simp)
  | cons b t ih =>
    intro i a h
    cases i with
    | zero => rfl
    | succ j =>
      simp only [List.set, List.getD_cons_succ]
      exact ih j a (by simpa using h)

theorem listSet_getD_ne {α : Type u} (d : α) :
    ∀ (l : List α) (i j : Nat) (a : α), i ≠ j →
      (l.set i a).getD j d = l.getD j d := by
  intro l
  induction l with
  | nil => intro i j a _; rfl
  | cons b t ih =>
    intro i j a hij
    cases i with
    | zero =>
      cases j with
      | zero => exact absurd rfl hij
      | succ k => rfl
    | succ i2 =>
      cases j with
      | zero => rfl
      | succ k =>
        simp only [List.set, List.getD_cons_succ]
        exact ih i2 k a (fun h => hij (congrArg Nat.succ h))

theorem listSet_getD_self {α : Type u} (d : α) :
    ∀ (l : List α) (i : Nat), l.set i (l.getD i d) = l := by
  intro l
  induction l with
  | nil => intro i; rfl
  | cons b t ih =>
    intro i
    cases i with
    | zero => rfl
    | succ j =>
      simp only [List.set, List.getD_cons_succ]
      exact congrArg (b :: ·) (ih j)

theorem listGetD_append_lt {α : Type u} (d : α) :
    ∀ (l l2 : List α) (i : Nat), i < l.length →
      (l ++ l2).getD i d = l.getD i d := by
  intro l
  induction l with
  | nil => intro l2 i h; exact absurd h (by simp)
  | cons b t ih =>
    intro l2 i h
    cases i with
    | zero => rfl
    | succ j =>
      simp only [List.cons_append, List.getD_cons_succ]
      exact ih l2 j (by simpa using h)

theorem listGetD_append_length {α : Type u} (d a : α) :
    ∀ (l : List α), (l ++ [a]).getD l.length d = a := by
  intro l
  induction l with
  | nil => rfl
  | cons b t ih =>
    simp only [List.cons_append, List.length_cons, List.getD_cons_succ]
    exact ih

/-! ### World helper lemmas -/

theorem length_setChan {T : Type u} (w : World T) (i : Nat) (s : ChanState T) :
    (w.setChan i s).chans.length = w.chans.length := by
  simp [World.setChan]

theorem getChan_setChan_eq {T : Type u} (w : World T) (i : Nat)
    (s : ChanState T) (h : i < w.chans.length) :
    (w.setChan i s).getChan i = s :=
  listSet_getD_eq ChanState.new w.chans i s h

theorem getChan_setChan_ne {T : Type u} (w : World T) (i j : Nat)
    (s : ChanState T) (h : i ≠ j) :
    (w.setChan i s).getChan j = w.getChan j :=
  listSet_getD_ne ChanState.new w.chans i j s h

theorem setChan_getChan_self {T : Type u} (w : World T) (i : Nat) :
    w.setChan i (w.getChan i) = w := by
  cases w with
  | mk chans => exact congrArg World.mk (listSet_getD_self ChanState.new chans i)

theorem setChan_setChan {T : Type u} (w : World T) (i : Nat)
    (s s2 : ChanState T) :
    (w.setChan i s).setChan i s2 = w.setChan i s2 := by
  simp [World.setChan]

/-! ### Channel-level lemmas -/

theorem lockRecv_ok {T : Type u} (s : ChanState T) (t : T) (rest : List T)
    (hp : s.poisoned = false) (hq : s.queue = t :: rest) :
    lockRecv s = (RecvOutcome.ok t, { s with queue := rest }) := by
  simp [lockRecv, hp, mpscRecv, hq]

theorem lockRecv_disc {T : Type u} (s : ChanState T)
    (hq : s.queue = []) (hg : s.sendersGone = true) :
    lockRecv s = (RecvOutcome.err, s) := by
  by_cases hp : s.poisoned = true
  · simp [lockRecv, hp]
  · simp only [Bool.not_eq_true] at hp
    simp [lockRecv, hp, mpscRecv, hq, hg]

theorem queue_nil_eta {T : Type u} (s : ChanState T) (hq : s.queue = []) :
    s = { s with queue := ([] : List T) } := by
  cases s
  simp_all

theorem recvN_drain {T : Type u} :
    ∀ (q : List T) (s : ChanState T), s.poisoned = false → s.queue = q →
      recvN q.length s = (q.map RecvOutcome.ok, { s with queue := ([] : List T) }) := by
  intro q
  induction q with
  | nil =>
    intro s hp hq
    simp [recvN, ← queue_nil_eta s hq]
  | cons t rest ih =>
    intro s hp hq
    have hstep := lockRecv_ok s t rest hp hq
    simp only [List.length_cons, recvN, hstep, List.map_cons]
    have := ih { s with queue := rest } (by simpa using hp) rfl
    simp [this]

theorem sendAll_queue {T : Type u} :
    ∀ (msgs : List T) (s : ChanState T),
      sendAll msgs s = { s with queue := s.queue ++ msgs } := by
  intro msgs
  induction msgs with
  | nil => intro s; simp [sendAll]
  | cons t rest ih =>
    intro s
    simp only [sendAll, List.foldl_cons]
    have h2 := ih (mpscSend t s)
    simp only [sendAll] at h2
    rw [h2]
    simp [mpscSend, List.append_assoc]

/-! ### World-level run lemmas -/

theorem runRecvs_sameCh {T : Type u} (c : Nat) :
    ∀ (rs : List (SharedReceiver T)) (w : World T),
      (∀ r ∈ rs, r.ch = c) → c < w.chans.length →
      runRecvs rs w =
        ((recvN rs.length (w.getChan c)).1,
          w.setChan c (recvN rs.length (w.getChan c)).2) := by
  intro rs
  induction rs with
  | nil =>
    intro w _ _
    simp [runRecvs, recvN, setChan_getChan_self]
  | cons r rest ih =>
    intro w hmem hc
    have hr : r.ch = c := hmem r (by simp)
    have hrest : ∀ x ∈ rest, x.ch = c := fun x hx => hmem x (by simp [hx])
    have hc2 : c < ((w.setChan c (lockRecv (w.getChan c)).2).chans).length := by
      rw [length_setChan]; exact hc
    have hstep : r.recv w =
        ((lockRecv (w.getChan c)).1, w.setChan c (lockRecv (w.getChan c)).2) := by
      simp [SharedReceiver.recv, hr]
    have hget : (w.setChan c (lockRecv (w.getChan c)).2).getChan c =
        (lockRecv (w.getChan c)).2 :=
      getChan_setChan_eq w c _ hc
    simp only [runRecvs, hstep]
    rw [ih (w.setChan c (lockRecv (w.getChan c)).2) hrest hc2, hget]
    simp only [recvN, setChan_setChan]

theorem okValues_map_ok {T : Type u} (q : List T) :
    okValues (q.map RecvOutcome.ok) = q := by
  induction q with
  | nil => rfl
  | cons t rest ih => simp [okValues, List.filterMap] at ih ⊢; exact ih

theorem sendAllW_eq {T : Type u} (tx : Sender T) (msgs : List T) :
    ∀ (w : World T), tx.ch < w.chans.length →
      sendAllW tx msgs w = w.setChan tx.ch (sendAll msgs (w.getChan tx.ch)) := by
  induction msgs with
  | nil =>
    intro w _
    simp [sendAllW, sendAll, setChan_getChan_self]
  | cons t rest ih =>
    intro w hc
    have hstep : tx.send t w = w.setChan tx.ch (mpscSend t (w.getChan tx.ch)) := rfl
    have hc2 : tx.ch < ((w.setChan tx.ch (mpscSend t (w.getChan tx.ch))).chans).length := by
      rw [length_setChan]; exact hc
    have hget : (w.setChan tx.ch (mpscSend t (w.getChan tx.ch))).getChan tx.ch =
        mpscSend t (w.getChan tx.ch) :=
      getChan_setChan_eq w tx.ch _ hc
    simp only [sendAllW, List.foldl_cons]
    have := ih (w.setChan tx.ch (mpscSend t (w.getChan tx.ch))) hc2
    simp only [sendAllW] at this
    rw [hstep, this, hget, setChan_setChan]
    simp [sendAll]

/-! ### Claim theorems -/

/-- Claim C2: if the blocking receive cannot acquire the lock because
the lock is poisoned (a prior holder terminated abnormally while
holding it), then `recv` returns the `RecvError` disconnected-style
error as an ordinary result value — it does not propagate the
abnormal termination. -/
theorem recv_poisoned_returns_err {T : Type u} (w : World T)
    (rx : SharedReceiver T) (hp : (w.getChan rx.ch).poisoned = true) :
    (rx.recv w).1 = RecvOutcome.err := by
  simp [SharedReceiver.recv, lockRecv, hp]

/-- Witness for C2: a poisoned lock over a non-empty queue still yields
the error value. -/
theorem recv_poisoned_returns_err_witness :
    ((⟨[⟨[5], false, true, false⟩]⟩ : World Nat).getChan 0).poisoned = true
    ∧ (SharedReceiver.recv ⟨0⟩
        (⟨[⟨[5], false, true, false⟩]⟩ : World Nat)).1 = RecvOutcome.err :=
  ⟨by decide, recv_poisoned_returns_err _ ⟨0⟩ (by decide)⟩

/-- Claim C5: each `next` call of the iterator performs exactly one
blocking receive on the bound receiver (same resulting state), yields
`Some t` exactly when that receive returns `Ok(t)`, ends (returns
`None`) exactly when it reports disconnected, and blocks exactly when
the receive blocks — so the sequence never ends on a transient empty
condition. -/
theorem iter_next_is_one_recv {T : Type u} (w : World T) (it : Iter T) :
    (it.next w).2 = (it.rx.recv w).2
    ∧ (∀ t : T, (it.next w).1 = NextOutcome.yields t ↔
        (it.rx.recv w).1 = RecvOutcome.ok t)
    ∧ ((it.next w).1 = NextOutcome.done ↔ (it.rx.recv w).1 = RecvOutcome.err)
    ∧ ((it.next w).1 = NextOutcome.blocks ↔
        (it.rx.recv w).1 = RecvOutcome.blocks) := by
  rcases hr : it.rx.recv w with ⟨r, w2⟩
  cases r <;> simp [Iter.next, hr]

/-- Claim C6: when every sender is gone and the queue is drained, a
blocking receive returns the disconnected error (it does not block),
the state does not change, so every later receive — any number of
them, and a freshly obtained iterator as well — also reports
disconnected: the channel never un-disconnects. -/
theorem disconnected_terminal {T : Type u} (w : World T)
    (rx : SharedReceiver T) (hq : (w.getChan rx.ch).queue = [])
    (hg : (w.getChan rx.ch).sendersGone = true) :
    rx.recv w = (RecvOutcome.err, w)
    ∧ (∀ n, runRecvs (List.replicate n rx) w
        = (List.replicate n RecvOutcome.err, w))
    ∧ (SharedReceiver.iter rx).next w = (NextOutcome.done, w) := by
  have hlock : lockRecv (w.getChan rx.ch) = (RecvOutcome.err, w.getChan rx.ch) :=
    lockRecv_disc _ hq hg
  have hrecv : rx.recv w = (RecvOutcome.err, w) := by
    simp [SharedReceiver.recv, hlock, setChan_getChan_self]
  refine ⟨hrecv, ?_, ?_⟩
  · intro n
    induction n with
    | zero => simp [runRecvs]
    | succ m ih => simp [List.replicate_succ, runRecvs, hrecv, ih]
  · simp [Iter.next, SharedReceiver.iter, hrecv]

/-- Witness for C6: all senders dropped, queue drained; three further
receives and a fresh iterator all report disconnected. -/
theorem disconnected_terminal_witness :
    ((⟨[⟨[], true, false, false⟩]⟩ : World Nat).getChan 0).queue = []
    ∧ SharedReceiver.recv ⟨0⟩ (⟨[⟨[], true, false, false⟩]⟩ : World Nat)
        = (RecvOutcome.err, ⟨[⟨[], true, false, false⟩]⟩)
    ∧ runRecvs (List.replicate 3 (⟨0⟩ : SharedReceiver Nat))
        ⟨[⟨[], true, false, false⟩]⟩
        = (List.replicate 3 RecvOutcome.err, ⟨[⟨[], true, false, false⟩]⟩)
    ∧ (SharedReceiver.iter (⟨0⟩ : SharedReceiver Nat)).next
        ⟨[⟨[], true, false, false⟩]⟩
        = (NextOutcome.done, ⟨[⟨[], true, false, false⟩]⟩) :=
  ⟨by decide,
   (disconnected_terminal _ _ (by decide) (by decide)).1,
   (disconnected_terminal _ _ (by decide) (by decide)).2.1 3,
   (disconnected_terminal _ _ (by decide) (by decide)).2.2⟩

/-- Claim C7: on a still-connected channel (at least one live sender,
lock free and unpoisoned) whose queue is currently empty, `try_recv`
returns `Empty`, not `Disconnected`. -/
theorem try_recv_empty_connected {T : Type u} (w : World T)
    (rx : SharedReceiver T) (hq : (w.getChan rx.ch).queue = [])
    (hg : (w.getChan rx.ch).sendersGone = false)
    (hl : (w.getChan rx.ch).lockHeld = false)
    (hp : (w.getChan rx.ch).poisoned = false) :
    (rx.try_recv w).1 = Except.error TryRecvError.Empty := by
  simp [SharedReceiver.try_recv, lockTryRecv, hl, hp, mpscTryRecv, hq, hg]

/-- Witness for C7: a freshly constructed (empty, connected) channel. -/
theorem try_recv_empty_connected_witness :
    ((⟨[ChanState.new]⟩ : World Nat).getChan 0).queue = []
    ∧ ((⟨[ChanState.new]⟩ : World Nat).getChan 0).sendersGone = false
    ∧ (SharedReceiver.try_recv ⟨0⟩ (⟨[ChanState.new]⟩ : World Nat)).1
        = Except.error TryRecvError.Empty :=
  ⟨by decide, by decide,
   try_recv_empty_connected _ ⟨0⟩ (by decide) (by decide) (by decide) (by decide)⟩

/-- Claim C9: the `IntoIterator` implementation for `&SharedReceiver`
yields the same iterator as `iter()`, and the two iterators behave
identically on every world state. -/
theorem intoIter_eq_iter {T : Type u} (rx : SharedReceiver T) :
    SharedReceiver.intoIter rx = rx.iter
    ∧ ∀ w : World T, (SharedReceiver.intoIter rx).next w = (rx.iter).next w :=
  ⟨rfl, fun _ => rfl⟩

/-- Claim C10: obtaining an iterator and cloning a receiver have no
observable side effect on any channel — the world state is unchanged,
so no message is removed, added or reordered and no connectivity flag
changes; the clone references the same underlying channel, and
receiving through the clone is the same operation as receiving through
the original. -/
theorem clone_iter_pure {T : Type u} (rx : SharedReceiver T) (w : World T) :
    (rx.cloneW w).2 = w
    ∧ (rx.iterW w).2 = w
    ∧ (rx.cloneW w).1.ch = rx.ch
    ∧ (rx.iterW w).1.rx = rx
    ∧ (∀ w2 : World T, SharedReceiver.recv (rx.cloneW w).1 w2 = rx.recv w2)
    ∧ (∀ w2 : World T, SharedReceiver.try_recv (rx.cloneW w).1 w2 = rx.try_recv w2) :=
  ⟨rfl, rfl, rfl, rfl, fun _ => rfl, fun _ => rfl⟩

/-- Claim C1: for any schedule of blocking receive calls performed by
clones of one SharedReceiver, one call per queued message, each message
is delivered to exactly one call: the multiset of received messages
equals the multiset of queued (sent, undelivered) messages — no
message skipped, none duplicated, whichever clone wins each race. -/
theorem recv_exactly_once_multiset {T : Type u} (w : World T)
    (rx : SharedReceiver T) (clones : List (SharedReceiver T))
    (hc : rx.ch < w.chans.length)
    (hclones : ∀ r ∈ clones, r = rx.clone)
    (hp : (w.getChan rx.ch).poisoned = false)
    (hn : clones.length = (w.getChan rx.ch).queue.length) :
    Multiset.ofList (okValues (runRecvs clones w).1)
      = Multiset.ofList (w.getChan rx.ch).queue := by
  have hch : ∀ r ∈ clones, r.ch = rx.ch := by
    intro r hr
    rw [hclones r hr]
    rfl
  rw [runRecvs_sameCh rx.ch clones w hch hc, hn,
    recvN_drain (w.getChan rx.ch).queue (w.getChan rx.ch) hp rfl]
  simp [okValues_map_ok]

/-- Witness for C1: queue holding messages 1 and 2, two clones each
receiving once; the delivered multiset is exactly the queued one. -/
theorem recv_exactly_once_multiset_witness :
    Multiset.ofList (okValues (runRecvs
        ([⟨0⟩, ⟨0⟩] : List (SharedReceiver Nat))
        (⟨[⟨[1, 2], true, false, false⟩]⟩ : World Nat)).1)
      = Multiset.ofList
        ((⟨[⟨[1, 2], true, false, false⟩]⟩ : World Nat).getChan 0).queue :=
  recv_exactly_once_multiset ⟨[⟨[1, 2], true, false, false⟩]⟩ ⟨0⟩ [⟨0⟩, ⟨0⟩]
    (by decide) (by decide) (by decide) (by decide)

/-- Claim C3: `try_recv` has exactly three outcomes, with these exact
conditions: a message when the lock is acquired (free, unpoisoned) and
the queue is non-empty; `Empty` when the lock is currently held by
another thread, or acquired over an empty still-connected queue;
`Disconnected` when the free lock is poisoned, or acquired with every
sender gone and the queue drained. -/
theorem try_recv_three_way {T : Type u} (w : World T)
    (rx : SharedReceiver T) :
    (∀ t : T, (rx.try_recv w).1 = Except.ok t ↔
        ((w.getChan rx.ch).lockHeld = false
          ∧ (w.getChan rx.ch).poisoned = false
          ∧ ∃ rest, (w.getChan rx.ch).queue = t :: rest))
    ∧ ((rx.try_recv w).1 = Except.error TryRecvError.Empty ↔
        ((w.getChan rx.ch).lockHeld = true
          ∨ ((w.getChan rx.ch).lockHeld = false
              ∧ (w.getChan rx.ch).poisoned = false
              ∧ (w.getChan rx.ch).queue = []
              ∧ (w.getChan rx.ch).sendersGone = false)))
    ∧ ((rx.try_recv w).1 = Except.error TryRecvError.Disconnected ↔
        ((w.getChan rx.ch).lockHeld = false
          ∧ ((w.getChan rx.ch).poisoned = true
              ∨ ((w.getChan rx.ch).queue = []
                  ∧ (w.getChan rx.ch).sendersGone = true)))) := by
  have hres : (rx.try_recv w).1 = (lockTryRecv (w.getChan rx.ch)).1 := rfl
  rcases hgc : w.getChan rx.ch with ⟨q, sg, pois, lh⟩
  rw [hgc] at hres
  rw [hres]
  cases lh <;> cases pois <;> cases sg <;> cases q <;>
    simp [lockTryRecv, mpscTryRecv]

theorem listGetD_out {α : Type u} (d : α) :
    ∀ (l : List α) (i : Nat), l.length ≤ i → l.getD i d = d := by
  intro l
  induction l with
  | nil => intro i _; rfl
  | cons b t ih =>
    intro i h
    cases i with
    | zero => exact absurd h (by simp)
    | succ j =>
      simp only [List.getD_cons_succ]
      exact ih j (by simpa using h)

theorem send_recv_fresh {T : Type u} (w : World T) (c : Nat) (t : T)
    (hc : c < w.chans.length) (hnew : w.getChan c = ChanState.new) :
    (SharedReceiver.recv ⟨c⟩ (Sender.send ⟨c⟩ t w)).1 = RecvOutcome.ok t := by
  have hsend : Sender.send ⟨c⟩ t w = w.setChan c (mpscSend t (w.getChan c)) := rfl
  have hget2 : (w.setChan c (mpscSend t (w.getChan c))).getChan c
      = mpscSend t (w.getChan c) := getChan_setChan_eq _ _ _ hc
  show (lockRecv ((Sender.send (⟨c⟩ : Sender T) t w).getChan c)).1 = RecvOutcome.ok t
  rw [hsend, hget2, hnew]
  rfl

/-- Claim C4: N messages sent from the single constructed Sender,
followed by N blocking receive calls on the single constructed
SharedReceiver clone with no other activity, are received in exactly
the order they were sent. -/
theorem fifo_order_single_clone {T : Type u} (w0 : World T) (msgs : List T) :
    (runRecvs (List.replicate msgs.length (shared_channel w0).1.2)
        (sendAllW (shared_channel w0).1.1 msgs (shared_channel w0).2)).1
      = msgs.map RecvOutcome.ok := by
  have hc : w0.chans.length
      < ((⟨w0.chans ++ [ChanState.new]⟩ : World T).chans).length := by
    simp
  have hget : (⟨w0.chans ++ [ChanState.new]⟩ : World T).getChan w0.chans.length
      = ChanState.new := by
    simp only [World.getChan]
    exact listGetD_append_length ChanState.new ChanState.new w0.chans
  have hw : (shared_channel w0).2 = (⟨w0.chans ++ [ChanState.new]⟩ : World T) := rfl
  have htx : (shared_channel w0).1.1 = (⟨w0.chans.length⟩ : Sender T) := rfl
  have hrx : (shared_channel w0).1.2
      = (⟨w0.chans.length⟩ : SharedReceiver T) := rfl
  rw [hw, htx, hrx]
  have hsend := sendAllW_eq (⟨w0.chans.length⟩ : Sender T) msgs
    (⟨w0.chans ++ [ChanState.new]⟩ : World T) hc
  rw [hsend]
  have hgetTx : (⟨w0.chans ++ [ChanState.new]⟩ : World T).getChan
      (⟨w0.chans.length⟩ : Sender T).ch = ChanState.new := hget
  rw [hgetTx]
  have hstate : sendAll msgs (ChanState.new : ChanState T)
      = ⟨msgs, false, false, false⟩ := by
    rw [sendAll_queue]
    simp [ChanState.new]
  rw [hstate]
  have hmem : ∀ r ∈ List.replicate msgs.length
      (⟨w0.chans.length⟩ : SharedReceiver T), r.ch = w0.chans.length := by
    intro r hr
    rw [List.eq_of_mem_replicate hr]
  have hc2 : w0.chans.length <
      (((⟨w0.chans ++ [ChanState.new]⟩ : World T).setChan
        (⟨w0.chans.length⟩ : Sender T).ch
        (⟨msgs, false, false, false⟩ : ChanState T)).chans).length := by
    rw [length_setChan]
    exact hc
  rw [runRecvs_sameCh w0.chans.length _ _ hmem hc2]
  rw [getChan_setChan_eq _ _ _ hc]
  rw [List.length_replicate]
  rw [recvN_drain msgs (⟨msgs, false, false, false⟩ : ChanState T) rfl rfl]

/-- Claim C8: `shared_channel` is a total function returning one Sender
and one SharedReceiver wired to the same single freshly allocated
channel: the fresh channel is empty and connected, it is distinct from
the channel of every earlier construction call (all of which are left
untouched), a message sent on the returned Sender is received back on
the returned SharedReceiver, and that send leaves every other channel
unchanged. -/
theorem shared_channel_fresh_pair {T : Type u} (w : World T) (t : T) :
    (shared_channel w).1.1.ch = (shared_channel w).1.2.ch
    ∧ (shared_channel w).2.getChan (shared_channel w).1.2.ch = ChanState.new
    ∧ (∀ i, i < w.chans.length →
        ((shared_channel w).2.getChan i = w.getChan i
          ∧ i ≠ (shared_channel w).1.2.ch))
    ∧ (SharedReceiver.recv (shared_channel w).1.2
        (Sender.send (shared_channel w).1.1 t (shared_channel w).2)).1
      = RecvOutcome.ok t
    ∧ (∀ i, i ≠ (shared_channel w).1.1.ch →
        (Sender.send (shared_channel w).1.1 t (shared_channel w).2).getChan i
          = w.getChan i) := by
  have hget : (shared_channel w).2.getChan (shared_channel w).1.2.ch
      = ChanState.new := by
    show (w.chans ++ [ChanState.new]).getD w.chans.length ChanState.new
      = ChanState.new
    exact listGetD_append_length ChanState.new ChanState.new w.chans
  have hc : w.chans.length < ((shared_channel w).2.chans).length := by
    show w.chans.length < (w.chans ++ [ChanState.new]).length
    simp
  have hold : ∀ i, i < w.chans.length →
      ((shared_channel w).2.getChan i = w.getChan i
        ∧ i ≠ (shared_channel w).1.2.ch) := by
    intro i hi
    refine ⟨?_, Nat.ne_of_lt hi⟩
    show (w.chans ++ [ChanState.new]).getD i ChanState.new
      = w.chans.getD i ChanState.new
    exact listGetD_append_lt ChanState.new w.chans [ChanState.new] i hi
  have hrecv : (SharedReceiver.recv (shared_channel w).1.2
      (Sender.send (shared_channel w).1.1 t (shared_channel w).2)).1
      = RecvOutcome.ok t :=
    send_recv_fresh ((shared_channel w).2) w.chans.length t hc hget
  have hother : ∀ i, i ≠ (shared_channel w).1.1.ch →
      (Sender.send (shared_channel w).1.1 t (shared_channel w).2).getChan i
        = w.getChan i := by
    intro i hi
    have hne : i ≠ w.chans.length := hi
    have h1 : (Sender.send (shared_channel w).1.1 t
        (shared_channel w).2).getChan i = (shared_channel w).2.getChan i :=
      getChan_setChan_ne ((shared_channel w).2) w.chans.length i _
        (fun h => hne h.symm)
    rw [h1]
    by_cases hlt : i < w.chans.length
    · exact (hold i hlt).1
    · have hge : w.chans.length ≤ i := Nat.le_of_not_lt hlt
      have hge2 : (w.chans ++ [ChanState.new]).length ≤ i := by
        simp only [List.length_append, List.length_cons, List.length_nil]
        omega
      show (w.chans ++ [ChanState.new]).getD i ChanState.new
        = w.chans.getD i ChanState.new
      rw [listGetD_out ChanState.new _ i hge2, listGetD_out ChanState.new _ i hge]
  exact ⟨rfl, hget, hold, hrecv, hother⟩

/-- Witness for C8: starting from a world already holding one channel,
the construction call allocates a distinct fresh channel, leaves the
old one untouched (also through the subsequent send), and the sent
message 7 is received back on the returned receiver. -/
theorem shared_channel_fresh_pair_witness :
    ((shared_channel (⟨[ChanState.new]⟩ : World Nat)).2.getChan 0
        = (⟨[ChanState.new]⟩ : World Nat).getChan 0
      ∧ (0 : Nat) ≠ (shared_channel (⟨[ChanState.new]⟩ : World Nat)).1.2.ch)
    ∧ (SharedReceiver.recv (shared_channel (⟨[ChanState.new]⟩ : World Nat)).1.2
        (Sender.send (shared_channel (⟨[ChanState.new]⟩ : World Nat)).1.1 7
          (shared_channel (⟨[ChanState.new]⟩ : World Nat)).2)).1
      = RecvOutcome.ok 7
    ∧ (Sender.send (shared_channel (⟨[ChanState.new]⟩ : World Nat)).1.1 7
        (shared_channel (⟨[ChanState.new]⟩ : World Nat)).2).getChan 0
      = (⟨[ChanState.new]⟩ : World Nat).getChan 0 :=
  ⟨(shared_channel_fresh_pair (⟨[ChanState.new]⟩ : World Nat) 7).2.2.1 0
      (by decide),
   (shared_channel_fresh_pair (⟨[ChanState.new]⟩ : World Nat) 7).2.2.2.1,
   (shared_channel_fresh_pair (⟨[ChanState.new]⟩ : World Nat) 7).2.2.2.2 0
      (by decide)⟩
